import Mathlib

/-!
# Verification of the travel-time photo gallery server

Shallow embedding of the Node/Express photo gallery in this repository.
The main server is `src/server.js`; `src/tests/basic.test.js` additionally
embeds a fuller snapshot of the same server that carries the EXIF date
resolver (`getDateInfoFor`), the sorted `/api/photos` listing, and the
`/files/thumbs/:name` handler with on-demand thumbnail generation.  Both are
modelled below; each definition names the JS function it embeds.

Modelling conventions:
* a Node `Buffer` is a `List Nat` of byte values;
* the filesystem (`PHOTO_DIR` and its `thumbs` subdirectory) is a pair of
  association lists from file name to content; a write prepends, so lookup
  sees the newest entry, matching overwrite semantics;
* `sharp` (the external image processor) is an explicit oracle
  `Buffer → Option Buffer`: `some t` is a successfully produced thumbnail,
  `none` is a thrown error (the code catches and logs it);
* `new Date()` / `crypto.randomBytes` are explicit inputs (`JsDate` and the
  random hex string);
* file names contain no path separator (they come from `req.params` /
  fixture basenames), so `path.extname` / `path.basename` are modelled on
  the whole string.
-/

namespace TravelTime

/-- A Node `Buffer`: a list of byte values. -/
abbrev Buffer := List Nat

/-- `buffer[i]` on a Node buffer (callers only index below the length). -/
def byteAt (buf : Buffer) (i : Nat) : Nat := buf.getD i 0

/-- Decoding one byte with Node's `'ascii'` encoding: the high bit of each
byte is masked off before interpreting it as a character. -/
def asciiChar (b : Nat) : Char := Char.ofNat (b % 128)

/-- `buffer.slice(start, stop).toString('ascii')`. -/
def asciiSlice (buf : Buffer) (start stop : Nat) : String :=
  String.mk (((buf.drop start).take (stop - start)).map asciiChar)

/-- `VALID_EXTENSIONS` from `src/server.js`. -/
def VALID_EXTENSIONS : List String := [".jpg", ".jpeg", ".png", ".gif", ".webp"]

/-- `isValidImageMagic` from `src/server.js`: magic-number sniffing over the
first bytes of the buffer.  The early-`return true` chain of the source is
the if-chain below. -/
def isValidImageMagic (buf : Buffer) : Bool :=
  if buf.length < 12 then false
  else if byteAt buf 0 = 0xff ∧ byteAt buf 1 = 0xd8 ∧ byteAt buf 2 = 0xff then true
  else if byteAt buf 0 = 0x89 ∧ byteAt buf 1 = 0x50 ∧ byteAt buf 2 = 0x4e ∧ byteAt buf 3 = 0x47 then
    true
  else if asciiSlice buf 0 6 = "GIF87a" ∨ asciiSlice buf 0 6 = "GIF89a" then true
  else if asciiSlice buf 0 4 = "RIFF" ∧ asciiSlice buf 8 12 = "WEBP" then true
  else false

/-- `s.toLowerCase()` for the ASCII strings handled here. -/
def toLowerString (s : String) : String := String.mk (s.data.map Char.toLower)

/-- Index of the last `'.'` in a list of characters, if any. -/
def lastDotIdx (l : List Char) : Option Nat :=
  (l.enum.filter (fun p => p.2 = '.')).getLast?.map (·.1)

/-- `path.extname` restricted to names without a path separator: the suffix
from the last dot, or `""` when there is no dot or the only dot leads the
name. -/
def extname (s : String) : String :=
  match lastDotIdx s.data with
  | none => ""
  | some 0 => ""
  | some i => String.mk (s.data.drop i)

/-- `path.basename(p, ext)` restricted to names without a path separator:
strips a trailing `ext` when `p` ends with it and is longer than it. -/
def basenameExt (p ext : String) : String :=
  if ext ≠ "" ∧ p.data.length > ext.data.length ∧
      p.data.drop (p.data.length - ext.data.length) = ext.data then
    String.mk (p.data.take (p.data.length - ext.data.length))
  else p

/-- `s.startsWith(p)` (JS `String.prototype.startsWith`). -/
def strStartsWith (s p : String) : Bool := s.data.take p.data.length = p.data

/-- `s.slice(n)` (JS `String.prototype.slice` with one argument). -/
def strSlice (s : String) (n : Nat) : String := String.mk (s.data.drop n)

/-- `s.substring(0, n)` (JS `String.prototype.substring`). -/
def strTake (s : String) (n : Nat) : String := String.mk (s.data.take n)

/-- `timingSafeEquals` from `src/server.js`: length check, then
`crypto.timingSafeEqual`, which decides byte equality. -/
def timingSafeEquals (a b : String) : Bool :=
  if a.data.length ≠ b.data.length then false else a = b

/-- The UTC clock reading taken by `new Date()` at a call site. -/
structure JsDate where
  year : Nat
  month : Nat
  day : Nat
  hour : Nat
  minute : Nat
  second : Nat
  millis : Nat
deriving DecidableEq, Repr

/-- Zero left-pad a numeral to a given width. -/
def padNum (width n : Nat) : String :=
  String.mk (List.replicate (width - (toString n).data.length) '0') ++ toString n

/-- `Date.prototype.toISOString`: `YYYY-MM-DDThh:mm:ss.mmmZ` (UTC). -/
def toISOString (d : JsDate) : String :=
  padNum 4 d.year ++ "-" ++ padNum 2 d.month ++ "-" ++ padNum 2 d.day ++ "T" ++
    padNum 2 d.hour ++ ":" ++ padNum 2 d.minute ++ ":" ++ padNum 2 d.second ++ "." ++
    padNum 3 d.millis ++ "Z"

/-- `.replace(/[-:.TZ]/g, '')` on the ISO string. -/
def stripTsChars (s : String) : String :=
  String.mk (s.data.filter (fun c => ¬ (c = '-' ∨ c = ':' ∨ c = '.' ∨ c = 'T' ∨ c = 'Z')))

/-- `generateFilename` from `src/server.js`: strip `[-:.TZ]` from the ISO
timestamp, keep the first 15 characters, and append `_`, the hex of
`crypto.randomBytes(6)` (passed in as `randomHex`), and the extension. -/
def generateFilename (dt : JsDate) (randomHex : String) (ext : String) : String :=
  strTake (stripTsChars (toISOString dt)) 15 ++ "_" ++ randomHex ++ ext

/-- One of the two on-disk directories: an association list from file name
to byte content.  Writing prepends, so `fmGet` sees the newest version. -/
abbrev FileMap := List (String × Buffer)

/-- Look up the current content of a file. -/
def fmGet : FileMap → String → Option Buffer
  | [], _ => none
  | (k, v) :: rest, key => if k = key then some v else fmGet rest key

/-- `fs.writeFile` / `sharp(...).toFile`: (over)write a file. -/
def fmSet (m : FileMap) (key : String) (v : Buffer) : FileMap := (key, v) :: m

/-- `fs.unlink`: remove every record of a file. -/
def fmDel (m : FileMap) (key : String) : FileMap := m.filter (fun p => p.1 ≠ key)

/-- The persistent state: `PHOTO_DIR` originals and the `thumbs` directory. -/
structure FS where
  originals : FileMap
  thumbs : FileMap
deriving DecidableEq, Repr

/-- The empty store. -/
def emptyFS : FS := ⟨[], []⟩

/-- `options` of `storeImageFromBuffer`. -/
structure StoreOptions where
  forceBasename : Option String := none
  overwrite : Bool := true
deriving DecidableEq, Repr

/-- JS truthiness of an optional string: `undefined` and `""` are falsy. -/
def presentStr : Option String → Option String
  | some s => if s = "" then none else some s
  | none => none

/-- The result of `storeImageFromBuffer`: either an error record or the
`{ item: { filename, thumb }, skipped }` success record. -/
inductive StoreResult where
  | error (msg : String) (original : Option String)
  | ok (filename : String) (thumb : String) (skipped : Bool)
deriving DecidableEq, Repr

/-- The target-name computation of `storeImageFromBuffer`: a sanitized
`<basename><ext>` when a basename is forced, else a generated name. -/
def storeTargetName (dt : JsDate) (randomHex : String) (forceBasename : Option String)
    (ext : String) : String :=
  match presentStr forceBasename with
  | some fb => basenameExt fb ext ++ ext
  | none => generateFilename dt randomHex ext

/-- `storeImageFromBuffer` from `src/server.js`.  `thumbGen` is the
`sharp(buffer).resize({width: 450}).jpeg({quality: 80}).toFile(..)` call:
`some t` writes thumbnail content `t`, `none` is the caught-and-logged
error.  `dt`/`randomHex` feed `generateFilename` when no basename is
forced. -/
def storeImageFromBuffer (thumbGen : Buffer → Option Buffer) (dt : JsDate) (randomHex : String)
    (fs : FS) (buffer : Buffer) (originalName : Option String) (opts : StoreOptions) :
    StoreResult × FS :=
  let sourceName := ((presentStr opts.forceBasename).getD
    ((presentStr originalName).getD "upload"))
  let ext := toLowerString (extname sourceName)
  if ext = "" then (.error "Unable to determine file type" originalName, fs)
  else if ext ∉ VALID_EXTENSIONS then (.error "Unsupported file type" originalName, fs)
  else if isValidImageMagic buffer = false then
    (.error "Uploaded file is not a valid image" originalName, fs)
  else
    let targetName := storeTargetName dt randomHex opts.forceBasename ext
    let base := basenameExt targetName ext
    let thumbName := base ++ ".thumb.jpg"
    if opts.overwrite = false ∧ (fmGet fs.originals targetName).isSome then
      let fs' :=
        if (fmGet fs.thumbs thumbName).isSome then fs
        else
          match thumbGen buffer with
          | some t => { fs with thumbs := fmSet fs.thumbs thumbName t }
          | none => fs
      (.ok targetName thumbName true, fs')
    else
      let fs1 := { fs with originals := fmSet fs.originals targetName buffer }
      let fs2 :=
        match thumbGen buffer with
        | some t => { fs1 with thumbs := fmSet fs1.thumbs thumbName t }
        | none => fs1
      (.ok targetName thumbName false, fs2)

/-- One file of a multipart upload batch. -/
structure UploadedFile where
  originalname : String
  buffer : Buffer
deriving DecidableEq, Repr

/-- A stored `{ filename, thumb }` entry of the upload response. -/
structure UploadItem where
  filename : String
  thumb : String
deriving DecidableEq, Repr

/-- A per-file `{ original, error }` entry of the upload response. -/
structure FileError where
  original : String
  error : String
deriving DecidableEq, Repr

/-- Response of `POST /api/upload`: either a request-level error
(`401`/`400` with a single message) or the batch outcome
(`400 success=false` or `200 success=true`). -/
inductive UploadResult where
  | err (status : Nat) (msg : String)
  | done (status : Nat) (success : Bool) (items : List UploadItem) (errors : List FileError)
deriving DecidableEq, Repr

/-- The per-file loop of the `POST /api/upload` handler in `src/server.js`:
each file is passed to `storeImageFromBuffer` with default options; error
results are collected per file, item results are collected in order.  The
`i`-th call to `crypto.randomBytes` yields `rng i`. -/
def processFiles (thumbGen : Buffer → Option Buffer) (dt : JsDate) (rng : Nat → String) :
    Nat → List UploadedFile → FS → List UploadItem × List FileError × FS
  | _, [], fs => ([], [], fs)
  | i, f :: rest, fs =>
    let r := storeImageFromBuffer thumbGen dt (rng i) fs f.buffer (some f.originalname) {}
    let rec' := processFiles thumbGen dt rng (i + 1) rest r.2
    match r.1 with
    | .error msg _ => (rec'.1, ⟨f.originalname, msg⟩ :: rec'.2.1, rec'.2.2)
    | .ok fn th _ => (⟨fn, th⟩ :: rec'.1, rec'.2.1, rec'.2.2)

/-- The `POST /api/upload` handler of `src/server.js` (after multer parsed
the files): bearer-token check, empty-batch check, per-file processing, and
the `items.length === 0` dichotomy for the final status. -/
def uploadHandler (thumbGen : Buffer → Option Buffer) (dt : JsDate) (rng : Nat → String)
    (uploadToken : String) (authHeader : Option String) (files : List UploadedFile)
    (fs : FS) : UploadResult × FS :=
  match authHeader with
  | none => (.err 401 "Missing or invalid Authorization header", fs)
  | some h =>
    if strStartsWith h "Bearer " = false then
      (.err 401 "Missing or invalid Authorization header", fs)
    else if timingSafeEquals (strSlice h 7) uploadToken = false then
      (.err 401 "Invalid token", fs)
    else if files = [] then (.err 400 "No file uploaded", fs)
    else
      let out := processFiles thumbGen dt rng 0 files fs
      if out.1 = [] then (.done 400 false [] out.2.1, out.2.2)
      else (.done 200 true out.1 out.2.1, out.2.2)

/-- The validation gates of `storeImageFromBuffer` in isolation: claimed
name must carry a whitelisted extension and the bytes must pass
`isValidImageMagic`.  `validateUpload name buf = true` exactly when
`storeImageFromBuffer` passes its three error gates for a file uploaded
under `name`. -/
def validateUpload (claimedName : String) (buf : Buffer) : Bool :=
  let ext := toLowerString (extname (if claimedName = "" then "upload" else claimedName))
  if ext = "" then false
  else if ext ∉ VALID_EXTENSIONS then false
  else isValidImageMagic buf

/-- `date_source` of a listed photo. -/
inductive DateSource where
  | exif
  | mtime
  | unknown
deriving DecidableEq, Repr

/-- One candidate EXIF tag value as seen by the `for (const val of
candidates)` loop of `getDateInfoFor` (snapshot server in
`src/tests/basic.test.js`): a numeric tag (seconds), a JS `Date`, a string
matching the `YYYY:MM:DD hh:mm:ss` pattern together with the value
`Date.parse` gives for it in the server's local zone (`none` = `NaN`), or
anything else (undefined tag / non-matching string), which leaves the
accumulator unchanged. -/
inductive ExifVal where
  | num (seconds : Int)
  | date (ms : Int)
  | strMatch (parsed : Option Int)
  | other
deriving DecidableEq, Repr

/-- The JS accumulator `ts` of the candidate loop: `null`, `NaN`, or a
number. -/
inductive TsState where
  | null
  | nan
  | num (ms : Int)
deriving DecidableEq, Repr

/-- JS truthiness of `ts` (`if (ts) break;`): only a nonzero number. -/
def tsTruthy : TsState → Bool
  | .num n => n ≠ 0
  | _ => false

/-- One iteration of the candidate loop. -/
def applyCand (ts : TsState) (v : ExifVal) : TsState :=
  if tsTruthy ts then ts
  else
    match v with
    | .num n => .num (n * 1000)
    | .date ms => .num ms
    | .strMatch (some p) => .num p
    | .strMatch none => .nan
    | .other => ts

/-- The whole candidate loop
(`[DateTimeOriginal, CreateDate, ModifyDate, DateTimeDigitized]`). -/
def loopTs (cands : List ExifVal) : TsState := cands.foldl applyCand .null

/-- The acceptance filter after the loop:
`if (typeof ts === 'number' && ts > 0)`. -/
def acceptExif (cands : List ExifVal) : Option Int :=
  match loopTs cands with
  | .num n => if n > 0 then some n else none
  | _ => none

/-- `getDateInfoFor` from the snapshot server in `src/tests/basic.test.js`.
`readOk` is whether the 64 KiB prefix read succeeded (its failure skips both
EXIF attempts); `cands` are the tag values parsed from that prefix;
`sharpCands` are the tag values from `sharp`'s extracted EXIF blob (`none`
when `sharp` fails or reports no EXIF); `mtimeMs` is `stats.mtimeMs`
(`none` when `stat` fails). -/
def getDateInfoFor (readOk : Bool) (cands : List ExifVal) (sharpCands : Option (List ExifVal))
    (mtimeMs : Option Int) : Int × DateSource :=
  match (if readOk then acceptExif cands else none) with
  | some v => (v, .exif)
  | none =>
    match (if readOk then
        (match sharpCands with | some cs => acceptExif cs | none => none) else none) with
    | some v => (v, .exif)
    | none =>
      match mtimeMs with
      | some m => (m, .mtime)
      | none => (0, .unknown)

/-- A directory entry paired with its resolved date, before sorting. -/
structure DatedFile where
  file : String
  dateMs : Int
  source : DateSource
deriving DecidableEq, Repr

/-- Insert into a list kept in descending `dateMs` order, after all entries
with a strictly larger-or-equal key (stable, like Node's
`Array.prototype.sort` with comparator `(a, b) => b.dateMs - a.dateMs`). -/
def insertByDateDesc (x : DatedFile) : List DatedFile → List DatedFile
  | [] => [x]
  | y :: ys => if x.dateMs > y.dateMs then x :: y :: ys else y :: insertByDateDesc x ys

/-- Stable sort by descending `dateMs`, modelling
`withDates.sort((a, b) => b.dateMs - a.dateMs)`. -/
def sortByDateDesc (l : List DatedFile) : List DatedFile := l.foldr insertByDateDesc []

/-- One entry of the `meta=1` listing response:
`{ original, thumb, date_taken, date_source }` (`date_taken` is `null` when
`dateMs` is `0`, the JS falsy sentinel). -/
structure PhotoMeta where
  original : String
  thumb : Option String
  dateTakenMs : Option Int
  dateSource : DateSource
deriving DecidableEq, Repr

/-- Response of `GET /api/photos`. -/
inductive ListResponse where
  | names (files : List String)
  | withMeta (images : List PhotoMeta)
deriving DecidableEq, Repr

/-- The `GET /api/photos` handler of the snapshot server in
`src/tests/basic.test.js`: filter the directory by extension, resolve each
file's date (the bounded-concurrency batching preserves order, so it is a
map), sort descending by `dateMs`, then either return the sorted names or
attach thumbnail matches and date metadata.  `dateInfo` is the per-file
result of `getDateInfoFor`; `thumbFiles` is the `thumbs` directory
listing. -/
def listPhotosHandler (dateInfo : String → Int × DateSource) (includeMeta : Bool)
    (dirFiles : List String) (thumbFiles : List String) : ListResponse :=
  let originals := dirFiles.filter (fun f => toLowerString (extname f) ∈ VALID_EXTENSIONS)
  let withDates := originals.map (fun f => DatedFile.mk f (dateInfo f).1 (dateInfo f).2)
  let sorted := sortByDateDesc withDates
  if includeMeta = false then .names (sorted.map (·.file))
  else
    .withMeta (sorted.map (fun df =>
      let ext := toLowerString (extname df.file)
      let base := basenameExt df.file ext
      let found := ([base ++ ".thumb.jpg", base ++ ".jpg"]).find? (fun n => thumbFiles.contains n)
      ⟨df.file, found, if df.dateMs = 0 then none else some df.dateMs, df.source⟩))

/-- Response of `GET /files/thumbs/:name`. -/
inductive ThumbResponse where
  | okBytes (content : Buffer)
  | notFound
  | genError
deriving DecidableEq, Repr

/-- The `GET /files/thumbs/:name` handler of the snapshot server in
`src/tests/basic.test.js`: whitelist check, direct thumbnail hit, the
`<base>.thumb.jpg` / legacy `<base>.jpg` candidates, then on-demand
generation from the original (writing `<base>.thumb.jpg`), a 500 when
generation fails, and 404 when nothing exists.  `thumbGen` is the
`sharp(originalPath).rotate().resize({width: 450}).jpeg({quality: 80})`
call applied to the original's content. -/
def thumbsHandler (thumbGen : Buffer → Option Buffer) (fs : FS) (inputName : String) :
    ThumbResponse × FS :=
  let ext := toLowerString (extname inputName)
  if ext ∉ VALID_EXTENSIONS then (.notFound, fs)
  else
    match fmGet fs.thumbs inputName with
    | some c => (.okBytes c, fs)
    | none =>
      let base := basenameExt inputName ext
      let newName := base ++ ".thumb.jpg"
      match fmGet fs.thumbs newName with
      | some c => (.okBytes c, fs)
      | none =>
        match fmGet fs.thumbs (base ++ ".jpg") with
        | some c => (.okBytes c, fs)
        | none =>
          match fmGet fs.originals inputName with
          | some orig =>
            match thumbGen orig with
            | some t => (.okBytes t, { fs with thumbs := fmSet fs.thumbs newName t })
            | none => (.genError, fs)
          | none => (.notFound, fs)

/-- The outcome of `storeImageFromBuffer` for one uploaded file under the
upload handler's default options.  With `overwrite = true` the result record
never depends on the filesystem state, so it is taken in the empty store. -/
def fileOutcome (thumbGen : Buffer → Option Buffer) (dt : JsDate) (randomHex : String)
    (f : UploadedFile) : StoreResult :=
  (storeImageFromBuffer thumbGen dt randomHex emptyFS f.buffer (some f.originalname) {}).1

/-- The acceptance condition of the magic-byte validator as the claim states
it: JPEG SOI prefix, the full 8-byte PNG signature, exact ASCII `GIF87a` /
`GIF89a`, or exact `RIFF`/`WEBP`. -/
def MagicSpecClaimed (buf : Buffer) : Prop :=
  (byteAt buf 0 = 0xff ∧ byteAt buf 1 = 0xd8 ∧ byteAt buf 2 = 0xff) ∨
  (byteAt buf 0 = 0x89 ∧ byteAt buf 1 = 0x50 ∧ byteAt buf 2 = 0x4e ∧ byteAt buf 3 = 0x47 ∧
    byteAt buf 4 = 0x0d ∧ byteAt buf 5 = 0x0a ∧ byteAt buf 6 = 0x1a ∧ byteAt buf 7 = 0x0a) ∨
  (byteAt buf 0 = 71 ∧ byteAt buf 1 = 73 ∧ byteAt buf 2 = 70 ∧ byteAt buf 3 = 56 ∧
    (byteAt buf 4 = 55 ∨ byteAt buf 4 = 57) ∧ byteAt buf 5 = 97) ∨
  (byteAt buf 0 = 82 ∧ byteAt buf 1 = 73 ∧ byteAt buf 2 = 70 ∧ byteAt buf 3 = 70 ∧
    byteAt buf 8 = 87 ∧ byteAt buf 9 = 69 ∧ byteAt buf 10 = 66 ∧ byteAt buf 11 = 80)

instance : DecidablePred MagicSpecClaimed := fun buf => by
  unfold MagicSpecClaimed; infer_instance

/-- The acceptance condition `isValidImageMagic` actually implements on a
buffer of at least 12 bytes: JPEG SOI prefix, only the FIRST FOUR bytes of
the PNG signature, and the GIF / RIFF / WEBP ASCII comparisons performed on
each byte with its high bit masked off (Node's `'ascii'` decoding). -/
def MagicSpecAmended (buf : Buffer) : Prop :=
  (byteAt buf 0 = 0xff ∧ byteAt buf 1 = 0xd8 ∧ byteAt buf 2 = 0xff) ∨
  (byteAt buf 0 = 0x89 ∧ byteAt buf 1 = 0x50 ∧ byteAt buf 2 = 0x4e ∧ byteAt buf 3 = 0x47) ∨
  (byteAt buf 0 % 128 = 71 ∧ byteAt buf 1 % 128 = 73 ∧ byteAt buf 2 % 128 = 70 ∧
    byteAt buf 3 % 128 = 56 ∧ (byteAt buf 4 % 128 = 55 ∨ byteAt buf 4 % 128 = 57) ∧
    byteAt buf 5 % 128 = 97) ∨
  (byteAt buf 0 % 128 = 82 ∧ byteAt buf 1 % 128 = 73 ∧ byteAt buf 2 % 128 = 70 ∧
    byteAt buf 3 % 128 = 70 ∧ byteAt buf 8 % 128 = 87 ∧ byteAt buf 9 % 128 = 69 ∧
    byteAt buf 10 % 128 = 66 ∧ byteAt buf 11 % 128 = 80)

instance : DecidablePred MagicSpecAmended := fun buf => by
  unfold MagicSpecAmended; infer_instance

/-- Response of `DELETE /api/photos/:name`. -/
inductive DeleteResult where
  | unauthorized
  | okResp (photoDeleted : Bool) (thumbnailDeleted : Bool)
deriving DecidableEq, Repr

/-- Modelled from the spec: no server-side handler for
`DELETE /api/photos/:name` exists under `src/` — only its frontend caller
`deletePhoto` in `src/public/script.js`, which sends
`DELETE /api/photos/<name>` with a bearer token and reads the
`photo_deleted` / `thumbnail_deleted` flags of the response.  Following
spec §3 (lifecycle) and §6: bearer auth as on upload; remove the original;
best-effort remove its conventional thumbnail `<base>.thumb.jpg`
(`thumbRemovalFails` models an `fs.unlink` error on the thumbnail); report
both flags, the primary success not blocked by the thumbnail outcome. -/
def deletePhotoHandler (uploadToken : String) (authHeader : Option String) (name : String)
    (thumbRemovalFails : Bool) (fs : FS) : DeleteResult × FS :=
  match authHeader with
  | none => (.unauthorized, fs)
  | some h =>
    if strStartsWith h "Bearer " = false then (.unauthorized, fs)
    else if timingSafeEquals (strSlice h 7) uploadToken = false then (.unauthorized, fs)
    else
      let photoExisted := (fmGet fs.originals name).isSome
      let fs1 : FS := { fs with originals := fmDel fs.originals name }
      let ext := toLowerString (extname name)
      let thumbName := basenameExt name ext ++ ".thumb.jpg"
      if (fmGet fs1.thumbs thumbName).isSome ∧ thumbRemovalFails = false then
        (.okResp photoExisted true, { fs1 with thumbs := fmDel fs1.thumbs thumbName })
      else (.okResp photoExisted false, fs1)

/-! ## Helper lemmas -/

theorem mem_valid_ne_empty {e : String} (h : e ∈ VALID_EXTENSIONS) : ¬ e = "" := by
  intro he
  rw [he] at h
  exact absurd h (by decide)

theorem fmGet_set_self (m : FileMap) (k : String) (v : Buffer) :
    fmGet (fmSet m k v) k = some v := by
  simp [fmGet, fmSet]

theorem fmGet_set_ne (m : FileMap) {k k' : String} (v : Buffer) (h : ¬ k = k') :
    fmGet (fmSet m k v) k' = fmGet m k' := by
  simp [fmGet, fmSet, h]

theorem fmGet_set (m : FileMap) (k key : String) (v : Buffer) :
    fmGet (fmSet m k v) key = if k = key then some v else fmGet m key := by
  simp [fmGet, fmSet]

theorem fmGet_del_self (m : FileMap) (k : String) : fmGet (fmDel m k) k = none := by
  induction m with
  | nil => rfl
  | cons a tl ih =>
    by_cases h : a.1 = k
    · simpa [fmDel, List.filter, h] using ih
    · simpa [fmDel, List.filter, h, fmGet] using ih

theorem acceptExif_pos {c : List ExifVal} {v : Int} (h : acceptExif c = some v) : 0 < v := by
  unfold acceptExif at h
  rcases hl : loopTs c with _ | _ | n <;> simp only [hl] at h
  · exact absurd h (by simp)
  · exact absurd h (by simp)
  · split at h
    · rename_i hn
      obtain rfl : n = v := by injection h
      exact hn
    · exact absurd h (by simp)

/-- Every result of the date resolver is a positive EXIF date, the supplied
mtime with source `mtime`, or the zero sentinel with source `unknown`. -/
theorem getDateInfo_shape (r : Bool) (c : List ExifVal) (s : Option (List ExifVal))
    (m : Option Int) :
    (∃ v, getDateInfoFor r c s m = (v, .exif) ∧ 0 < v) ∨
    (∃ mm, m = some mm ∧ getDateInfoFor r c s m = (mm, .mtime)) ∨
    (m = none ∧ getDateInfoFor r c s m = (0, .unknown)) := by
  unfold getDateInfoFor
  rcases h1 : (if r = true then acceptExif c else none) with _ | v
  · simp only [h1]
    rcases h2 : (if r = true then
        (match s with | some cs => acceptExif cs | none => none) else none) with _ | w
    · simp only [h2]
      rcases m with _ | mm
      · right; right; exact ⟨rfl, rfl⟩
      · right; left; exact ⟨mm, rfl, rfl⟩
    · simp only [h2]
      left
      refine ⟨w, rfl, ?_⟩
      split at h2
      · rcases s with _ | cs
        · exact absurd h2 (by simp)
        · exact acceptExif_pos h2
      · exact absurd h2 (by simp)
  · simp only [h1]
    left
    refine ⟨v, rfl, ?_⟩
    split at h1
    · exact acceptExif_pos h1
    · exact absurd h1 (by simp)

/-! ## Claims -/

/-- C10: the date resolver accepts an embedded timestamp only when it is a
strictly positive epoch value — `date_source = exif` implies a positive
`dateMs` — and an embedded value at or before the epoch is discarded, the
resolver falling through to the filesystem mtime with source `mtime`. -/
theorem c10_exif_requires_positive_epoch :
    (∀ (readOk : Bool) (cands : List ExifVal) (sharpCands : Option (List ExifVal))
        (mtimeMs : Option Int),
      (getDateInfoFor readOk cands sharpCands mtimeMs).2 = .exif →
      0 < (getDateInfoFor readOk cands sharpCands mtimeMs).1) ∧
    (∀ (cands : List ExifVal) (m n : Int), loopTs cands = .num n → n ≤ 0 →
      getDateInfoFor true cands none (some m) = (m, .mtime)) := by
  constructor
  · intro readOk cands sharpCands mtimeMs hsrc
    rcases getDateInfo_shape readOk cands sharpCands mtimeMs with
      ⟨v, he, hv⟩ | ⟨mm, _, he⟩ | ⟨_, he⟩
    · rw [he]
      exact hv
    · rw [he] at hsrc
      exact absurd hsrc (by simp)
    · rw [he] at hsrc
      exact absurd hsrc (by simp)
  · intro cands m n hl hn
    unfold getDateInfoFor acceptExif
    simp only [hl, if_true]
    rw [if_neg (by omega : ¬ n > 0)]

/-- C10 witness. -/
theorem c10_exif_requires_positive_epoch_witness :
    0 < (getDateInfoFor true [.num 5] none none).1 ∧
    getDateInfoFor true [.num (-10)] none (some 1700000000000) = (1700000000000, .mtime) :=
  ⟨c10_exif_requires_positive_epoch.1 true [.num 5] none none (by decide),
   c10_exif_requires_positive_epoch.2 [.num (-10)] 1700000000000 (-10000) (by decide) (by decide)⟩

/-- C7 (the code contradicts its own `// YYYYMMDDhhmmss` comment):
`generateFilename` keeps the first 15 characters of the stripped ISO
timestamp, so the timestamp component of the name has 15 digits — 14 whole
second digits plus the leading tenth-of-a-second digit — not the claimed
14-digit whole-second `YYYYMMDDhhmmss`.  At 2025-01-01 12:34:56.789 UTC with
random hex `abcdef123456` the generated `.jpg` name carries timestamp
component `202501011234567`, not `20250101123456`. -/
theorem c7_generateFilename_keeps_a_subsecond_digit :
    generateFilename ⟨2025, 1, 1, 12, 34, 56, 789⟩ "abcdef123456" ".jpg"
      = "202501011234567_abcdef123456.jpg" ∧
    (stripTsChars (toISOString ⟨2025, 1, 1, 12, 34, 56, 789⟩)).data.length = 17 ∧
    (strTake (stripTsChars (toISOString ⟨2025, 1, 1, 12, 34, 56, 789⟩)) 15).data.length = 15 ∧
    ¬ generateFilename ⟨2025, 1, 1, 12, 34, 56, 789⟩ "abcdef123456" ".jpg"
      = "20250101123456_abcdef123456.jpg" := by
  refine ⟨by decide, by decide, by decide, by decide⟩

/-- C5 counterexample: a `.png` claimed extension with GIF signature bytes
is NOT rejected — the validation gates of `storeImageFromBuffer` accept it
and the file is stored. -/
theorem c5_counterexample_cross_format_accepted :
    validateUpload "photo.png" [71, 73, 70, 56, 55, 97, 0, 0, 0, 0, 0, 0] = true ∧
    (storeImageFromBuffer (fun _ => none) ⟨2024, 1, 2, 3, 4, 5, 6⟩ "0123456789ab" emptyFS
        [71, 73, 70, 56, 55, 97, 0, 0, 0, 0, 0, 0] (some "photo.png") {}).1
      = .ok "202401020304050_0123456789ab.png" "202401020304050_0123456789ab.thumb.jpg"
          false := by
  exact ⟨by decide, by decide⟩

/-- C5 (amended): when the claimed extension is in the accepted set, the
validation outcome is exactly the magic-byte check, which accepts the
signature of ANY supported format — a buffer whose signature belongs to a
different supported format than the extension names is still accepted, not
rejected. -/
theorem c5_validation_ignores_which_format_matches (name : String) (buf : Buffer)
    (hv : toLowerString (extname (if name = "" then "upload" else name)) ∈ VALID_EXTENSIONS) :
    validateUpload name buf = isValidImageMagic buf := by
  unfold validateUpload
  rw [if_neg (mem_valid_ne_empty hv), if_neg (by simpa using hv)]

/-- C5 witness. -/
theorem c5_validation_ignores_which_format_matches_witness :
    toLowerString (extname (if ("photo.png" : String) = "" then "upload" else "photo.png"))
        ∈ VALID_EXTENSIONS ∧
    validateUpload "photo.png" [255, 216, 255, 0, 0, 0, 0, 0, 0, 0, 0, 0]
      = isValidImageMagic [255, 216, 255, 0, 0, 0, 0, 0, 0, 0, 0, 0] :=
  ⟨by decide,
   c5_validation_ignores_which_format_matches "photo.png"
     [255, 216, 255, 0, 0, 0, 0, 0, 0, 0, 0, 0] (by decide)⟩

/-- C9 (spec-modelled: the `DELETE /api/photos/:name` route exists only as
a frontend caller under `src/`): with valid bearer authentication the
handler removes the original, best-effort removes the conventional
thumbnail, and responds with both flags; a missing thumbnail or a failed
thumbnail removal leaves `photo_deleted` — the report of the primary
delete — untouched. -/
theorem c9_delete_reports_both_flags (uploadToken h name : String) (fails : Bool) (fs : FS)
    (h1 : strStartsWith h "Bearer " = true)
    (h2 : timingSafeEquals (strSlice h 7) uploadToken = true) :
    (deletePhotoHandler uploadToken (some h) name fails fs).1
      = .okResp (fmGet fs.originals name).isSome
          ((fmGet fs.thumbs
              (basenameExt name (toLowerString (extname name)) ++ ".thumb.jpg")).isSome
            && !fails) ∧
    fmGet (deletePhotoHandler uploadToken (some h) name fails fs).2.originals name = none := by
  cases hIso : (fmGet fs.thumbs
      (basenameExt name (toLowerString (extname name)) ++ ".thumb.jpg")).isSome <;>
    cases fails <;>
    simp [deletePhotoHandler, h1, h2, hIso, fmGet_del_self]

/-- C9 witness. -/
theorem c9_delete_reports_both_flags_witness :
    strStartsWith "Bearer tok" "Bearer " = true ∧
    timingSafeEquals (strSlice "Bearer tok" 7) "tok" = true ∧
    ((deletePhotoHandler "tok" (some "Bearer tok") "a.png" false
        ⟨[("a.png", [1, 2, 3])], []⟩).1
      = .okResp (fmGet (FS.mk [("a.png", [1, 2, 3])] []).originals "a.png").isSome
          ((fmGet (FS.mk [("a.png", [1, 2, 3])] []).thumbs
              (basenameExt "a.png" (toLowerString (extname "a.png")) ++ ".thumb.jpg")).isSome
            && !false) ∧
      fmGet (deletePhotoHandler "tok" (some "Bearer tok") "a.png" false
        ⟨[("a.png", [1, 2, 3])], []⟩).2.originals "a.png" = none) :=
  ⟨by decide, by decide,
   c9_delete_reports_both_flags "tok" "Bearer tok" "a.png" false
     ⟨[("a.png", [1, 2, 3])], []⟩ (by decide) (by decide)⟩

/-- The fixture-import path of `storeImageFromBuffer`
(`force_basename` given, `overwrite = false`), once the three gates pass. -/
theorem store_force_eq (tg : Buffer → Option Buffer) (dt : JsDate) (r : String) (fs : FS)
    (buf : Buffer) (orig : Option String) (f : String)
    (hf : ¬ f = "")
    (hv : toLowerString (extname f) ∈ VALID_EXTENSIONS)
    (hm : isValidImageMagic buf = true) :
    storeImageFromBuffer tg dt r fs buf orig ⟨some f, false⟩ =
      (if (fmGet fs.originals (basenameExt f (toLowerString (extname f)) ++
            toLowerString (extname f))).isSome = true then
        (.ok (basenameExt f (toLowerString (extname f)) ++ toLowerString (extname f))
          (basenameExt (basenameExt f (toLowerString (extname f)) ++ toLowerString (extname f))
            (toLowerString (extname f)) ++ ".thumb.jpg") true,
         if (fmGet fs.thumbs
              (basenameExt (basenameExt f (toLowerString (extname f)) ++
                  toLowerString (extname f)) (toLowerString (extname f)) ++
                ".thumb.jpg")).isSome = true then fs
         else
           match tg buf with
           | some t => ⟨fs.originals,
               fmSet fs.thumbs
                 (basenameExt (basenameExt f (toLowerString (extname f)) ++
                     toLowerString (extname f)) (toLowerString (extname f)) ++ ".thumb.jpg") t⟩
           | none => fs)
      else
        (.ok (basenameExt f (toLowerString (extname f)) ++ toLowerString (extname f))
          (basenameExt (basenameExt f (toLowerString (extname f)) ++ toLowerString (extname f))
            (toLowerString (extname f)) ++ ".thumb.jpg") false,
         match tg buf with
         | some t => ⟨fmSet fs.originals
               (basenameExt f (toLowerString (extname f)) ++ toLowerString (extname f)) buf,
             fmSet fs.thumbs
               (basenameExt (basenameExt f (toLowerString (extname f)) ++
                   toLowerString (extname f)) (toLowerString (extname f)) ++ ".thumb.jpg") t⟩
         | none => ⟨fmSet fs.originals
               (basenameExt f (toLowerString (extname f)) ++ toLowerString (extname f)) buf,
             fs.thumbs⟩)) := by
  unfold storeImageFromBuffer
  simp only [presentStr, storeTargetName, hf, if_false, Option.getD_some,
    if_neg (mem_valid_ne_empty hv), if_neg (not_not_intro hv), hm, Bool.true_eq_false,
    if_false]
  split
  · rename_i hc
    rw [if_pos hc.2]
  · rename_i hc
    rw [if_neg (fun hI => hc ⟨trivial, hI⟩)]

/-- C1: fixture import (`force_basename`, `overwrite=false`) is idempotent:
from a state with neither the original nor its thumbnail, the first call
stores and reports `skipped=false`, the second reports `skipped=true`,
leaves the originals untouched (the content at the target stays the bytes
written by the first call), and regenerates the thumbnail when it is
missing at the second call. -/
theorem c1_store_force_idempotent (tg₁ tg₂ : Buffer → Option Buffer) (dt₁ dt₂ : JsDate)
    (r₁ r₂ : String) (fs : FS) (buf : Buffer) (f tn th : String) (t : Buffer)
    (hf : ¬ f = "")
    (hv : toLowerString (extname f) ∈ VALID_EXTENSIONS)
    (hm : isValidImageMagic buf = true)
    (htn : tn = basenameExt f (toLowerString (extname f)) ++ toLowerString (extname f))
    (hth : th = basenameExt tn (toLowerString (extname f)) ++ ".thumb.jpg")
    (ho : fmGet fs.originals tn = none)
    (ht : fmGet fs.thumbs th = none) :
    (storeImageFromBuffer tg₁ dt₁ r₁ fs buf (some f) ⟨some f, false⟩).1 = .ok tn th false ∧
    (storeImageFromBuffer tg₂ dt₂ r₂
        (storeImageFromBuffer tg₁ dt₁ r₁ fs buf (some f) ⟨some f, false⟩).2 buf (some f)
        ⟨some f, false⟩).1 = .ok tn th true ∧
    (storeImageFromBuffer tg₂ dt₂ r₂
        (storeImageFromBuffer tg₁ dt₁ r₁ fs buf (some f) ⟨some f, false⟩).2 buf (some f)
        ⟨some f, false⟩).2.originals
      = (storeImageFromBuffer tg₁ dt₁ r₁ fs buf (some f) ⟨some f, false⟩).2.originals ∧
    fmGet (storeImageFromBuffer tg₁ dt₁ r₁ fs buf (some f) ⟨some f, false⟩).2.originals tn
      = some buf ∧
    fmGet (storeImageFromBuffer tg₂ dt₂ r₂
        (storeImageFromBuffer tg₁ dt₁ r₁ fs buf (some f) ⟨some f, false⟩).2 buf (some f)
        ⟨some f, false⟩).2.originals tn = some buf ∧
    (tg₁ buf = none →
      fmGet (storeImageFromBuffer tg₁ dt₁ r₁ fs buf (some f) ⟨some f, false⟩).2.thumbs th
        = none) ∧
    (tg₁ buf = none → tg₂ buf = some t →
      fmGet (storeImageFromBuffer tg₂ dt₂ r₂
          (storeImageFromBuffer tg₁ dt₁ r₁ fs buf (some f) ⟨some f, false⟩).2 buf (some f)
          ⟨some f, false⟩).2.thumbs th = some t) := by
  subst htn
  subst hth
  have e₁ := store_force_eq tg₁ dt₁ r₁ fs buf (some f) f hf hv hm
  rw [ho] at e₁
  simp only [Option.isSome_none, Bool.false_eq_true, if_false] at e₁
  rcases htg₁ : tg₁ buf with _ | t₁ <;> simp only [htg₁] at e₁
  · have e₂ := store_force_eq tg₂ dt₂ r₂
      ⟨fmSet fs.originals (basenameExt f (toLowerString (extname f)) ++
        toLowerString (extname f)) buf, fs.thumbs⟩ buf (some f) f hf hv hm
    simp only [fmGet_set_self, ht, Option.isSome_some, Option.isSome_none, eq_self_iff_true,
      if_true, Bool.false_eq_true, if_false] at e₂
    rcases htg₂ : tg₂ buf with _ | t₂ <;> simp only [htg₂] at e₂ <;>
      refine ⟨by rw [e₁], by rw [e₁, e₂], by rw [e₁, e₂], by rw [e₁]; exact fmGet_set_self .. ,
        by rw [e₁, e₂]; exact fmGet_set_self .., fun _ => by rw [e₁]; exact ht, ?_⟩
    · intro _ hsome
      exact absurd hsome (by simp)
    · intro _ hsome
      rw [e₁, e₂]
      obtain rfl : t₂ = t := Option.some.inj hsome
      exact fmGet_set_self ..
  · have e₂ := store_force_eq tg₂ dt₂ r₂
      ⟨fmSet fs.originals (basenameExt f (toLowerString (extname f)) ++
          toLowerString (extname f)) buf,
        fmSet fs.thumbs (basenameExt (basenameExt f (toLowerString (extname f)) ++
            toLowerString (extname f)) (toLowerString (extname f)) ++ ".thumb.jpg") t₁⟩
      buf (some f) f hf hv hm
    simp only [fmGet_set_self, Option.isSome_some, eq_self_iff_true, if_true] at e₂
    exact ⟨by rw [e₁], by rw [e₁, e₂], by rw [e₁, e₂], by rw [e₁]; exact fmGet_set_self ..,
      by rw [e₁, e₂]; exact fmGet_set_self ..,
      fun hcontra => absurd hcontra (by simp),
      fun hcontra _ => absurd hcontra (by simp)⟩

/-- C1 witness. -/
theorem c1_store_force_idempotent_witness :
    (storeImageFromBuffer (fun _ => none) ⟨2024, 1, 2, 3, 4, 5, 6⟩ "aa" emptyFS
        [137, 80, 78, 71, 13, 10, 26, 10, 0, 0, 0, 0] (some "f.png")
        ⟨some "f.png", false⟩).1 = .ok "f.png" "f.thumb.jpg" false ∧
    (storeImageFromBuffer (fun _ => some [9]) ⟨2024, 1, 2, 3, 4, 5, 7⟩ "bb"
        (storeImageFromBuffer (fun _ => none) ⟨2024, 1, 2, 3, 4, 5, 6⟩ "aa" emptyFS
          [137, 80, 78, 71, 13, 10, 26, 10, 0, 0, 0, 0] (some "f.png")
          ⟨some "f.png", false⟩).2
        [137, 80, 78, 71, 13, 10, 26, 10, 0, 0, 0, 0] (some "f.png")
        ⟨some "f.png", false⟩).1 = .ok "f.png" "f.thumb.jpg" true ∧
    fmGet (storeImageFromBuffer (fun _ => some [9]) ⟨2024, 1, 2, 3, 4, 5, 7⟩ "bb"
        (storeImageFromBuffer (fun _ => none) ⟨2024, 1, 2, 3, 4, 5, 6⟩ "aa" emptyFS
          [137, 80, 78, 71, 13, 10, 26, 10, 0, 0, 0, 0] (some "f.png")
          ⟨some "f.png", false⟩).2
        [137, 80, 78, 71, 13, 10, 26, 10, 0, 0, 0, 0] (some "f.png")
        ⟨some "f.png", false⟩).2.thumbs "f.thumb.jpg" = some [9] := by
  have h := c1_store_force_idempotent (fun _ => none) (fun _ => some [9])
    ⟨2024, 1, 2, 3, 4, 5, 6⟩ ⟨2024, 1, 2, 3, 4, 5, 7⟩ "aa" "bb" emptyFS
    [137, 80, 78, 71, 13, 10, 26, 10, 0, 0, 0, 0] "f.png" "f.png" "f.thumb.jpg" [9]
    (by decide) (by decide) (by decide) (by decide) (by decide) (by decide) (by decide)
  exact ⟨h.1, h.2.1, h.2.2.2.2.2.2 rfl rfl⟩

/-- C4: when the gates pass and thumbnail generation fails (`sharp` throws,
modelled by the oracle returning `none`), the store still succeeds with
`skipped=false`, reports the stored original's name, the original's bytes
are on disk at that name, and the thumbs directory is untouched. -/
theorem c4_thumbnail_failure_never_fails_store (tg : Buffer → Option Buffer) (dt : JsDate)
    (r : String) (fs : FS) (buf : Buffer) (name : Option String) (opts : StoreOptions)
    (hv : toLowerString (extname ((presentStr opts.forceBasename).getD
        ((presentStr name).getD "upload"))) ∈ VALID_EXTENSIONS)
    (hm : isValidImageMagic buf = true)
    (hover : opts.overwrite = true)
    (htg : tg buf = none) :
    (storeImageFromBuffer tg dt r fs buf name opts).1
      = .ok (storeTargetName dt r opts.forceBasename
          (toLowerString (extname ((presentStr opts.forceBasename).getD
            ((presentStr name).getD "upload")))))
        (basenameExt (storeTargetName dt r opts.forceBasename
            (toLowerString (extname ((presentStr opts.forceBasename).getD
              ((presentStr name).getD "upload")))))
          (toLowerString (extname ((presentStr opts.forceBasename).getD
            ((presentStr name).getD "upload")))) ++ ".thumb.jpg") false ∧
    (storeImageFromBuffer tg dt r fs buf name opts).2
      = ⟨fmSet fs.originals (storeTargetName dt r opts.forceBasename
          (toLowerString (extname ((presentStr opts.forceBasename).getD
            ((presentStr name).getD "upload"))))) buf, fs.thumbs⟩ ∧
    fmGet (storeImageFromBuffer tg dt r fs buf name opts).2.originals
      (storeTargetName dt r opts.forceBasename
        (toLowerString (extname ((presentStr opts.forceBasename).getD
          ((presentStr name).getD "upload"))))) = some buf := by
  unfold storeImageFromBuffer
  simp only [if_neg (mem_valid_ne_empty hv), if_neg (not_not_intro hv), hm,
    Bool.true_eq_false, if_false, hover, false_and, htg]
  exact ⟨trivial, trivial, fmGet_set_self ..⟩

/-- C4 witness. -/
theorem c4_thumbnail_failure_never_fails_store_witness :
    (storeImageFromBuffer (fun _ => none) ⟨2024, 1, 2, 3, 4, 5, 6⟩ "cc" emptyFS
        [255, 216, 255, 0, 0, 0, 0, 0, 0, 0, 0, 0] (some "x.jpg") {}).1
      = .ok "202401020304050_cc.jpg" "202401020304050_cc.thumb.jpg" false ∧
    (storeImageFromBuffer (fun _ => none) ⟨2024, 1, 2, 3, 4, 5, 6⟩ "cc" emptyFS
        [255, 216, 255, 0, 0, 0, 0, 0, 0, 0, 0, 0] (some "x.jpg") {}).2
      = ⟨[("202401020304050_cc.jpg", [255, 216, 255, 0, 0, 0, 0, 0, 0, 0, 0, 0])], []⟩ ∧
    fmGet (storeImageFromBuffer (fun _ => none) ⟨2024, 1, 2, 3, 4, 5, 6⟩ "cc" emptyFS
        [255, 216, 255, 0, 0, 0, 0, 0, 0, 0, 0, 0] (some "x.jpg") {}).2.originals
      "202401020304050_cc.jpg" = some [255, 216, 255, 0, 0, 0, 0, 0, 0, 0, 0, 0] := by
  have h := c4_thumbnail_failure_never_fails_store (fun _ => none) ⟨2024, 1, 2, 3, 4, 5, 6⟩
    "cc" emptyFS [255, 216, 255, 0, 0, 0, 0, 0, 0, 0, 0, 0] (some "x.jpg") {}
    (by decide) (by decide) rfl rfl
  exact ⟨h.1, h.2.1, h.2.2⟩

/-- C8: for a whitelisted name with no thumbnail under either convention
but an existing original, the handler generates the thumbnail on demand,
stores it as `<base>.thumb.jpg`, and returns it; a second identical request
serves the now-existing file with no further state change; and when
neither a thumbnail nor the original exists the response is 404. -/
theorem c8_thumbs_on_demand_generation (tg : Buffer → Option Buffer) (fs : FS) (name : String)
    (orig t : Buffer)
    (hv : toLowerString (extname name) ∈ VALID_EXTENSIONS)
    (h0 : fmGet fs.thumbs name = none)
    (h1 : fmGet fs.thumbs
        (basenameExt name (toLowerString (extname name)) ++ ".thumb.jpg") = none)
    (h2 : fmGet fs.thumbs (basenameExt name (toLowerString (extname name)) ++ ".jpg") = none)
    (h3 : fmGet fs.originals name = some orig)
    (h4 : tg orig = some t) :
    thumbsHandler tg fs name
      = (.okBytes t, ⟨fs.originals,
          fmSet fs.thumbs (basenameExt name (toLowerString (extname name)) ++ ".thumb.jpg") t⟩) ∧
    thumbsHandler tg
        ⟨fs.originals,
          fmSet fs.thumbs (basenameExt name (toLowerString (extname name)) ++ ".thumb.jpg") t⟩
        name
      = (.okBytes t, ⟨fs.originals,
          fmSet fs.thumbs (basenameExt name (toLowerString (extname name)) ++ ".thumb.jpg") t⟩) ∧
    (∀ fs₂ : FS, fmGet fs₂.thumbs name = none →
      fmGet fs₂.thumbs (basenameExt name (toLowerString (extname name)) ++ ".thumb.jpg") = none →
      fmGet fs₂.thumbs (basenameExt name (toLowerString (extname name)) ++ ".jpg") = none →
      fmGet fs₂.originals name = none →
      thumbsHandler tg fs₂ name = (.notFound, fs₂)) := by
  refine ⟨?_, ?_, ?_⟩
  · unfold thumbsHandler
    simp only [if_neg (not_not_intro hv), h0, h1, h2, h3, h4]
  · unfold thumbsHandler
    by_cases hname : basenameExt name (toLowerString (extname name)) ++ ".thumb.jpg" = name
    · simp only [if_neg (not_not_intro hv), fmGet_set, if_pos hname]
    · simp only [if_neg (not_not_intro hv), fmGet_set, if_neg hname, h0, eq_self_iff_true,
        if_true]
  · intro fs₂ g0 g1 g2 g3
    unfold thumbsHandler
    simp only [if_neg (not_not_intro hv), g0, g1, g2, g3]


/-- C8 witness. -/
theorem c8_thumbs_on_demand_generation_witness :
    thumbsHandler (fun _ => some [7])
        ⟨[("a.png", [137, 80, 78, 71, 13, 10, 26, 10, 0, 0, 0, 0])], []⟩ "a.png"
      = (.okBytes [7], ⟨[("a.png", [137, 80, 78, 71, 13, 10, 26, 10, 0, 0, 0, 0])],
          [("a.thumb.jpg", [7])]⟩) ∧
    thumbsHandler (fun _ => some [7])
        ⟨[("a.png", [137, 80, 78, 71, 13, 10, 26, 10, 0, 0, 0, 0])], [("a.thumb.jpg", [7])]⟩
        "a.png"
      = (.okBytes [7], ⟨[("a.png", [137, 80, 78, 71, 13, 10, 26, 10, 0, 0, 0, 0])],
          [("a.thumb.jpg", [7])]⟩) ∧
    thumbsHandler (fun _ => some [7]) emptyFS "a.png" = (.notFound, emptyFS) := by
  have h := c8_thumbs_on_demand_generation (fun _ => some [7])
    ⟨[("a.png", [137, 80, 78, 71, 13, 10, 26, 10, 0, 0, 0, 0])], []⟩ "a.png"
    [137, 80, 78, 71, 13, 10, 26, 10, 0, 0, 0, 0] [7]
    (by decide) (by decide) (by decide) (by decide) (by decide) rfl
  exact ⟨h.1, h.2.1, h.2.2 emptyFS rfl rfl rfl rfl⟩

/-- With the upload handler's default options (`overwrite = true`) the
result record of `storeImageFromBuffer` does not depend on the filesystem
state. -/
theorem store_default_result_indep (tg : Buffer → Option Buffer) (dt : JsDate) (r : String)
    (buf : Buffer) (nm : Option String) (fs fs' : FS) :
    (storeImageFromBuffer tg dt r fs buf nm {}).1
      = (storeImageFromBuffer tg dt r fs' buf nm {}).1 := by
  unfold storeImageFromBuffer
  simp only [Bool.true_eq_false, false_and, if_false]
  split_ifs <;> rfl

/-- The per-file loop collects exactly one item per passing file and one
error entry per failing file, in order. -/
theorem processFiles_spec (tg : Buffer → Option Buffer) (dt : JsDate) (rng : Nat → String) :
    ∀ (files : List UploadedFile) (i : Nat) (fs : FS),
    (processFiles tg dt rng i files fs).1 = (files.enumFrom i).filterMap (fun p =>
        match fileOutcome tg dt (rng p.1) p.2 with
        | .ok fn th _ => some (UploadItem.mk fn th)
        | .error _ _ => none) ∧
    (processFiles tg dt rng i files fs).2.1 = (files.enumFrom i).filterMap (fun p =>
        match fileOutcome tg dt (rng p.1) p.2 with
        | .error msg _ => some (FileError.mk p.2.originalname msg)
        | .ok _ _ _ => none) := by
  intro files
  induction files with
  | nil => exact fun i fs => ⟨rfl, rfl⟩
  | cons f rest ih =>
    intro i fs
    have hr : (storeImageFromBuffer tg dt (rng i) fs f.buffer (some f.originalname) {}).1
        = fileOutcome tg dt (rng i) f :=
      store_default_result_indep tg dt (rng i) f.buffer (some f.originalname) fs emptyFS
    unfold processFiles
    simp only [hr, List.enumFrom_cons, List.filterMap_cons]
    rcases hout : fileOutcome tg dt (rng i) f with ⟨msg, orig⟩ | ⟨fn, th, sk⟩ <;>
      simp only [hout] <;>
      exact ⟨by rw [(ih (i + 1) _).1], by rw [(ih (i + 1) _).2]⟩


/-- C3: with a valid token, each file of a nonempty batch is processed
independently — the response lists one stored item per passing file and one
per-file error entry per failing file, in input order — and the status is
`200` with `success=true` exactly when at least one file was stored, `400`
with `success=false` when every file failed. -/
theorem c3_upload_batch_independent_files (tg : Buffer → Option Buffer) (dt : JsDate)
    (rng : Nat → String) (tok h : String) (files : List UploadedFile) (fs : FS)
    (hs : strStartsWith h "Bearer " = true)
    (ht : timingSafeEquals (strSlice h 7) tok = true)
    (hne : ¬ files = []) :
    (uploadHandler tg dt rng tok (some h) files fs).1
      = (if files.enum.filterMap (fun p =>
            match fileOutcome tg dt (rng p.1) p.2 with
            | .ok fn th _ => some (UploadItem.mk fn th)
            | .error _ _ => none) = [] then
          UploadResult.done 400 false []
            (files.enum.filterMap (fun p =>
              match fileOutcome tg dt (rng p.1) p.2 with
              | .error msg _ => some (FileError.mk p.2.originalname msg)
              | .ok _ _ _ => none))
        else
          UploadResult.done 200 true
            (files.enum.filterMap (fun p =>
              match fileOutcome tg dt (rng p.1) p.2 with
              | .ok fn th _ => some (UploadItem.mk fn th)
              | .error _ _ => none))
            (files.enum.filterMap (fun p =>
              match fileOutcome tg dt (rng p.1) p.2 with
              | .error msg _ => some (FileError.mk p.2.originalname msg)
              | .ok _ _ _ => none))) := by
  unfold uploadHandler
  simp only [hs, ht, Bool.true_eq_false, if_false, if_neg hne]
  have hspec := processFiles_spec tg dt rng files 0 fs
  rw [show files.enum = files.enumFrom 0 from rfl, ← hspec.1, ← hspec.2]
  split <;> rfl

/-- C3 witness: one valid PNG and one text file renamed `.png` yield
`success=true`, one stored item, and one `InvalidImage` error entry. -/
theorem c3_upload_batch_independent_files_witness :
    (uploadHandler (fun _ => some [1]) ⟨2024, 1, 2, 3, 4, 5, 6⟩ (fun _ => "0123456789ab") "t"
        (some "Bearer t")
        [⟨"a.png", [137, 80, 78, 71, 13, 10, 26, 10, 0, 0, 0, 0]⟩,
         ⟨"b.png", [104, 101, 108, 108, 111, 32, 119, 111, 114, 108, 100, 33]⟩] emptyFS).1
      = .done 200 true
          [⟨"202401020304050_0123456789ab.png", "202401020304050_0123456789ab.thumb.jpg"⟩]
          [⟨"b.png", "Uploaded file is not a valid image"⟩] := by
  have h := c3_upload_batch_independent_files (fun _ => some [1]) ⟨2024, 1, 2, 3, 4, 5, 6⟩
    (fun _ => "0123456789ab") "t" "Bearer t"
    [⟨"a.png", [137, 80, 78, 71, 13, 10, 26, 10, 0, 0, 0, 0]⟩,
     ⟨"b.png", [104, 101, 108, 108, 111, 32, 119, 111, 114, 108, 100, 33]⟩] emptyFS
    (by decide) (by decide) (by decide)
  exact h.trans (by decide)

/-- Members of an insertion are the inserted element or an old member. -/
theorem mem_insertByDateDesc {z x : DatedFile} :
    ∀ {l : List DatedFile}, z ∈ insertByDateDesc x l → z = x ∨ z ∈ l := by
  intro l
  induction l with
  | nil =>
    intro h
    simp only [insertByDateDesc, List.mem_singleton] at h
    exact Or.inl h
  | cons y ys ih =>
    intro h
    unfold insertByDateDesc at h
    by_cases hc : x.dateMs > y.dateMs
    · rw [if_pos hc] at h
      rcases List.mem_cons.mp h with rfl | hz
      · exact Or.inl rfl
      · exact Or.inr hz
    · rw [if_neg hc] at h
      rcases List.mem_cons.mp h with rfl | hz
      · exact Or.inr (List.mem_cons_self ..)
      · rcases ih hz with rfl | hzys
        · exact Or.inl rfl
        · exact Or.inr (List.mem_cons_of_mem _ hzys)

/-- Insertion preserves the descending-`dateMs` pairwise invariant. -/
theorem pairwise_insertByDateDesc (x : DatedFile) :
    ∀ l : List DatedFile, l.Pairwise (fun a b => b.dateMs ≤ a.dateMs) →
      (insertByDateDesc x l).Pairwise (fun a b => b.dateMs ≤ a.dateMs) := by
  intro l
  induction l with
  | nil => exact fun _ => List.pairwise_singleton ..
  | cons y ys ih =>
    intro hp
    rcases List.pairwise_cons.mp hp with ⟨hy, hys⟩
    unfold insertByDateDesc
    by_cases hc : x.dateMs > y.dateMs
    · rw [if_pos hc]
      refine List.pairwise_cons.mpr ⟨?_, hp⟩
      intro z hz
      rcases List.mem_cons.mp hz with rfl | hzys
      · exact le_of_lt hc
      · exact le_trans (hy z hzys) (le_of_lt hc)
    · rw [if_neg hc]
      refine List.pairwise_cons.mpr ⟨?_, ih hys⟩
      intro z hz
      rcases mem_insertByDateDesc hz with rfl | hzys
      · exact le_of_not_lt hc
      · exact hy z hzys

/-- The listing sort is descending in `dateMs`. -/
theorem pairwise_sortByDateDesc (l : List DatedFile) :
    (sortByDateDesc l).Pairwise (fun a b => b.dateMs ≤ a.dateMs) := by
  induction l with
  | nil => exact List.Pairwise.nil
  | cons a rest ih => exact pairwise_insertByDateDesc a _ ih

/-- The sort only permutes entries. -/
theorem mem_sortByDateDesc {z : DatedFile} :
    ∀ {l : List DatedFile}, z ∈ sortByDateDesc l → z ∈ l := by
  intro l
  induction l with
  | nil => exact fun h => absurd h (by simp [sortByDateDesc])
  | cons a rest ih =>
    intro h
    rcases mem_insertByDateDesc h with rfl | hz
    · exact List.mem_cons_self ..
    · exact List.mem_cons_of_mem _ (ih hz)

/-- C2: the listing is sorted descending by resolved timestamp in both
modes, every unresolved item (sentinel `0`, shown as `date_taken = null`)
comes after every item with a positive resolved date, and the concrete
three-image scenario (2024-06-01, 2024-01-01, unknown) is returned in
exactly that order. -/
theorem c2_listing_sorted_newest_first :
    (∀ (dateInfo : String → Int × DateSource) (dirs thumbs : List String)
        (metas : List PhotoMeta),
      listPhotosHandler dateInfo true dirs thumbs = .withMeta metas →
      metas.Pairwise (fun a b => b.dateTakenMs.getD 0 ≤ a.dateTakenMs.getD 0) ∧
      ∀ i j : Fin metas.length, i < j → 0 < (metas.get j).dateTakenMs.getD 0 →
        0 < (metas.get i).dateTakenMs.getD 0) ∧
    (∀ (dateInfo : String → Int × DateSource) (dirs thumbs : List String)
        (names : List String),
      listPhotosHandler dateInfo false dirs thumbs = .names names →
      names.Pairwise (fun f g => (dateInfo g).1 ≤ (dateInfo f).1)) ∧
    listPhotosHandler
        (fun f => if f = "b.png" then (1717200000000, .exif)
          else if f = "a.png" then (1704067200000, .exif) else (0, .unknown))
        true ["a.png", "b.png", "c.png"] []
      = .withMeta [⟨"b.png", none, some 1717200000000, .exif⟩,
          ⟨"a.png", none, some 1704067200000, .exif⟩,
          ⟨"c.png", none, none, .unknown⟩] := by
  refine ⟨?_, ?_, by decide⟩
  · intro dateInfo dirs thumbs metas heq
    unfold listPhotosHandler at heq
    simp only [Bool.true_eq_false, if_false] at heq
    obtain rfl := (ListResponse.withMeta.inj heq).symm
    have hsorted := pairwise_sortByDateDesc
      ((dirs.filter (fun f => decide (toLowerString (extname f) ∈ VALID_EXTENSIONS))).map
        (fun f => DatedFile.mk f (dateInfo f).1 (dateInfo f).2))
    have hpair : (((sortByDateDesc
        ((dirs.filter (fun f => decide (toLowerString (extname f) ∈ VALID_EXTENSIONS))).map
          (fun f => DatedFile.mk f (dateInfo f).1 (dateInfo f).2))).map (fun df =>
            PhotoMeta.mk df.file
              (([basenameExt df.file (toLowerString (extname df.file)) ++ ".thumb.jpg",
                  basenameExt df.file (toLowerString (extname df.file)) ++ ".jpg"]).find?
                (fun n => thumbs.contains n))
              (if df.dateMs = 0 then none else some df.dateMs) df.source))).Pairwise
        (fun a b => b.dateTakenMs.getD 0 ≤ a.dateTakenMs.getD 0) := by
      rw [List.pairwise_map]
      refine hsorted.imp ?_
      intro a b hab
      have ha : ((if a.dateMs = 0 then none else some a.dateMs : Option Int)).getD 0
          = a.dateMs := by
        by_cases h0 : a.dateMs = 0 <;> simp [h0]
      have hb : ((if b.dateMs = 0 then none else some b.dateMs : Option Int)).getD 0
          = b.dateMs := by
        by_cases h0 : b.dateMs = 0 <;> simp [h0]
      simpa [ha, hb] using hab
    refine ⟨hpair, ?_⟩
    intro i j hij hpos
    exact lt_of_lt_of_le hpos (List.pairwise_iff_get.mp hpair i j hij)
  · intro dateInfo dirs thumbs names heq
    unfold listPhotosHandler at heq
    simp only [eq_self_iff_true, if_true] at heq
    obtain rfl := (ListResponse.names.inj heq).symm
    rw [List.pairwise_map]
    refine List.Pairwise.imp_of_mem ?_ (pairwise_sortByDateDesc _)
    intro a b ha hb hab
    rcases List.mem_map.mp (mem_sortByDateDesc ha) with ⟨fa, _, rfl⟩
    rcases List.mem_map.mp (mem_sortByDateDesc hb) with ⟨fb, _, rfl⟩
    exact hab

/-- C2 witness. -/
theorem c2_listing_sorted_newest_first_witness :
    ([PhotoMeta.mk "b.png" none (some 1717200000000) .exif,
      PhotoMeta.mk "a.png" none (some 1704067200000) .exif,
      PhotoMeta.mk "c.png" none none .unknown]).Pairwise
      (fun a b => b.dateTakenMs.getD 0 ≤ a.dateTakenMs.getD 0) ∧
    (["b.png", "a.png", "c.png"] : List String).Pairwise (fun f g =>
      ((fun f => if f = "b.png" then ((1717200000000 : Int), DateSource.exif)
        else if f = "a.png" then (1704067200000, .exif) else (0, .unknown)) g).1 ≤
      ((fun f => if f = "b.png" then ((1717200000000 : Int), DateSource.exif)
        else if f = "a.png" then (1704067200000, .exif) else (0, .unknown)) f).1) := by
  have h1 := (c2_listing_sorted_newest_first.1
    (fun f => if f = "b.png" then (1717200000000, .exif)
      else if f = "a.png" then (1704067200000, .exif) else (0, .unknown))
    ["a.png", "b.png", "c.png"] []
    [PhotoMeta.mk "b.png" none (some 1717200000000) .exif,
     PhotoMeta.mk "a.png" none (some 1704067200000) .exif,
     PhotoMeta.mk "c.png" none none .unknown] (by decide)).1
  have h2 := c2_listing_sorted_newest_first.2.1
    (fun f => if f = "b.png" then (1717200000000, .exif)
      else if f = "a.png" then (1704067200000, .exif) else (0, .unknown))
    ["a.png", "b.png", "c.png"] [] ["b.png", "a.png", "c.png"] (by decide)
  exact ⟨h1, h2⟩

/-- `Char.toNat` inverts `Char.ofNat` below 128. -/
theorem toNat_ofNat_lt (n : Nat) (h : n < 128) : (Char.ofNat n).toNat = n := by
  unfold Char.ofNat
  rw [dif_pos (Or.inl (by omega) : n.isValidChar)]
  rfl

/-- Equality against a 7-bit character decodes to a byte condition. -/
theorem asciiChar_eq_iff (b : Nat) (c : Char) (_hc : c.toNat < 128) :
    asciiChar b = c ↔ b % 128 = c.toNat := by
  unfold asciiChar
  constructor
  · intro h
    have h2 := congrArg Char.toNat h
    rwa [toNat_ofNat_lt _ (Nat.mod_lt _ (by omega))] at h2
  · intro h
    rw [h]
    exact Char.ofNat_toNat c

theorem exists_cons_of_le_length {α : Type} {n : Nat} {l : List α} (h : n + 1 ≤ l.length) :
    ∃ a tl, l = a :: tl ∧ n ≤ tl.length := by
  cases l with
  | nil => simp at h
  | cons a tl => exact ⟨a, tl, rfl, by simpa using h⟩

/-- An early-return chain of four accepting conditions is their
disjunction. -/
theorem ite_chain_iff (P1 P2 P3 P4 : Prop) [Decidable P1] [Decidable P2] [Decidable P3]
    [Decidable P4] :
    ((if P1 then true else if P2 then true else if P3 then true
        else if P4 then true else false) = true)
      ↔ (P1 ∨ P2 ∨ P3 ∨ P4) := by
  split_ifs <;> simp_all

set_option maxHeartbeats 2000000 in
/-- C6 (amended): buffers shorter than 12 bytes are always rejected, and a
buffer of at least 12 bytes is accepted exactly when it carries the JPEG
SOI prefix, the FIRST FOUR bytes of the PNG signature (the remaining four
are not checked), or — with the high bit of each byte ignored, as Node's
`'ascii'` decoding does — the `GIF87a`/`GIF89a` prefix or `RIFF`/`WEBP` at
offsets 0 and 8. -/
theorem c6_magic_characterization :
    (∀ buf : Buffer, buf.length < 12 → isValidImageMagic buf = false) ∧
    (∀ buf : Buffer, 12 ≤ buf.length →
      (isValidImageMagic buf = true ↔ MagicSpecAmended buf)) := by
  constructor
  · intro buf h
    unfold isValidImageMagic
    rw [if_pos h]
  · intro buf h
    obtain ⟨b0, l0, rfl, h0⟩ := exists_cons_of_le_length h
    obtain ⟨b1, l1, rfl, h1⟩ := exists_cons_of_le_length h0
    obtain ⟨b2, l2, rfl, h2⟩ := exists_cons_of_le_length h1
    obtain ⟨b3, l3, rfl, h3⟩ := exists_cons_of_le_length h2
    obtain ⟨b4, l4, rfl, h4⟩ := exists_cons_of_le_length h3
    obtain ⟨b5, l5, rfl, h5⟩ := exists_cons_of_le_length h4
    obtain ⟨b6, l6, rfl, h6⟩ := exists_cons_of_le_length h5
    obtain ⟨b7, l7, rfl, h7⟩ := exists_cons_of_le_length h6
    obtain ⟨b8, l8, rfl, h8⟩ := exists_cons_of_le_length h7
    obtain ⟨b9, l9, rfl, h9⟩ := exists_cons_of_le_length h8
    obtain ⟨b10, l10, rfl, h10⟩ := exists_cons_of_le_length h9
    obtain ⟨b11, rest, rfl, h11⟩ := exists_cons_of_le_length h10
    have hstr : ∀ (l : List Char) (s : String), (String.mk l = s) ↔ l = s.data :=
      fun l s => ⟨fun hh => by rw [← hh], fun hh => by rw [hh]⟩
    have hG : ∀ b : Nat, (asciiChar b = 'G') = (b % 128 = 71) := fun b =>
      propext ((asciiChar_eq_iff b 'G' (by decide)).trans (by rw [show ('G').toNat = 71 from rfl]))
    have hI : ∀ b : Nat, (asciiChar b = 'I') = (b % 128 = 73) := fun b =>
      propext ((asciiChar_eq_iff b 'I' (by decide)).trans (by rw [show ('I').toNat = 73 from rfl]))
    have hF : ∀ b : Nat, (asciiChar b = 'F') = (b % 128 = 70) := fun b =>
      propext ((asciiChar_eq_iff b 'F' (by decide)).trans (by rw [show ('F').toNat = 70 from rfl]))
    have h8 : ∀ b : Nat, (asciiChar b = '8') = (b % 128 = 56) := fun b =>
      propext ((asciiChar_eq_iff b '8' (by decide)).trans (by rw [show ('8').toNat = 56 from rfl]))
    have h7 : ∀ b : Nat, (asciiChar b = '7') = (b % 128 = 55) := fun b =>
      propext ((asciiChar_eq_iff b '7' (by decide)).trans (by rw [show ('7').toNat = 55 from rfl]))
    have h9 : ∀ b : Nat, (asciiChar b = '9') = (b % 128 = 57) := fun b =>
      propext ((asciiChar_eq_iff b '9' (by decide)).trans (by rw [show ('9').toNat = 57 from rfl]))
    have hA : ∀ b : Nat, (asciiChar b = 'a') = (b % 128 = 97) := fun b =>
      propext ((asciiChar_eq_iff b 'a' (by decide)).trans (by rw [show ('a').toNat = 97 from rfl]))
    have hR : ∀ b : Nat, (asciiChar b = 'R') = (b % 128 = 82) := fun b =>
      propext ((asciiChar_eq_iff b 'R' (by decide)).trans (by rw [show ('R').toNat = 82 from rfl]))
    have hW : ∀ b : Nat, (asciiChar b = 'W') = (b % 128 = 87) := fun b =>
      propext ((asciiChar_eq_iff b 'W' (by decide)).trans (by rw [show ('W').toNat = 87 from rfl]))
    have hE : ∀ b : Nat, (asciiChar b = 'E') = (b % 128 = 69) := fun b =>
      propext ((asciiChar_eq_iff b 'E' (by decide)).trans (by rw [show ('E').toNat = 69 from rfl]))
    have hB : ∀ b : Nat, (asciiChar b = 'B') = (b % 128 = 66) := fun b =>
      propext ((asciiChar_eq_iff b 'B' (by decide)).trans (by rw [show ('B').toNat = 66 from rfl]))
    have hP : ∀ b : Nat, (asciiChar b = 'P') = (b % 128 = 80) := fun b =>
      propext ((asciiChar_eq_iff b 'P' (by decide)).trans (by rw [show ('P').toNat = 80 from rfl]))
    unfold isValidImageMagic MagicSpecAmended asciiSlice byteAt
    rw [if_neg (by simp only [List.length_cons]; omega)]
    rw [ite_chain_iff]
    simp only [show (6 : Nat) - 0 = 6 from rfl, show (4 : Nat) - 0 = 4 from rfl,
      show (12 : Nat) - 8 = 4 from rfl,
      List.drop_zero, List.take_succ_cons, List.take_zero, List.drop_succ_cons,
      List.map_cons, List.map_nil, List.getD_cons_zero, List.getD_cons_succ, hstr,
      show ("GIF87a" : String).data = ['G', 'I', 'F', '8', '7', 'a'] from rfl,
      show ("GIF89a" : String).data = ['G', 'I', 'F', '8', '9', 'a'] from rfl,
      show ("RIFF" : String).data = ['R', 'I', 'F', 'F'] from rfl,
      show ("WEBP" : String).data = ['W', 'E', 'B', 'P'] from rfl,
      List.cons.injEq, and_true, hG, hI, hF, h8, h7, h9, hA, hR, hW, hE, hB, hP]
    constructor
    · rintro (hj | hp | (⟨g1, g2, g3, g4, g5, g6⟩ | ⟨g1, g2, g3, g4, g5, g6⟩) |
        ⟨⟨r1, r2, r3, r4⟩, w1, w2, w3, w4⟩)
      · exact Or.inl hj
      · exact Or.inr (Or.inl hp)
      · exact Or.inr (Or.inr (Or.inl ⟨g1, g2, g3, g4, Or.inl g5, g6⟩))
      · exact Or.inr (Or.inr (Or.inl ⟨g1, g2, g3, g4, Or.inr g5, g6⟩))
      · exact Or.inr (Or.inr (Or.inr ⟨r1, r2, r3, r4, w1, w2, w3, w4⟩))
    · rintro (hj | hp | ⟨g1, g2, g3, g4, (g5 | g5), g6⟩ |
        ⟨r1, r2, r3, r4, w1, w2, w3, w4⟩)
      · exact Or.inl hj
      · exact Or.inr (Or.inl hp)
      · exact Or.inr (Or.inr (Or.inl (Or.inl ⟨g1, g2, g3, g4, g5, g6⟩)))
      · exact Or.inr (Or.inr (Or.inl (Or.inr ⟨g1, g2, g3, g4, g5, g6⟩)))
      · exact Or.inr (Or.inr (Or.inr ⟨⟨r1, r2, r3, r4⟩, w1, w2, w3, w4⟩))

/-- C6 witness. -/
theorem c6_magic_characterization_witness :
    isValidImageMagic [1, 2, 3] = false ∧
    (isValidImageMagic [137, 80, 78, 71, 0, 0, 0, 0, 0, 0, 0, 0] = true ↔
      MagicSpecAmended [137, 80, 78, 71, 0, 0, 0, 0, 0, 0, 0, 0]) :=
  ⟨c6_magic_characterization.1 [1, 2, 3] (by decide),
   c6_magic_characterization.2 [137, 80, 78, 71, 0, 0, 0, 0, 0, 0, 0, 0] (by decide)⟩

/-- C6 counterexample: the claim's characterization ("the full 8-byte PNG
signature", exact ASCII comparisons) is false on the code.  A 12-byte
buffer carrying only the first four PNG bytes (then zeros) is accepted
though it matches none of the claim's signatures, and so is a GIF87a
prefix with the high bit of its first byte set (Node's `'ascii'` decoding
masks it off). -/
theorem c6_counterexample_png_four_bytes_and_high_bit :
    isValidImageMagic [137, 80, 78, 71, 0, 0, 0, 0, 0, 0, 0, 0] = true ∧
    ¬ MagicSpecClaimed [137, 80, 78, 71, 0, 0, 0, 0, 0, 0, 0, 0] ∧
    isValidImageMagic [199, 73, 70, 56, 55, 97, 0, 0, 0, 0, 0, 0] = true ∧
    ¬ MagicSpecClaimed [199, 73, 70, 56, 55, 97, 0, 0, 0, 0, 0, 0] :=
  ⟨by decide, by decide, by decide, by decide⟩

end TravelTime
